import Mathlib

/-!
# Verification of the marid supervision core

A shallow embedding of the marid crate (src/composer.rs, src/process.rs,
src/traits.rs, src/lib.rs) in Lean 4, with theorems settling the frozen
claims about the Composer (multi-runner fan-out and error aggregation)
and the Process (one-shot ready/wait/signal lifecycle).

Concurrency is embedded by making scheduling choices explicit parameters:
the order in which worker threads complete (and thus serialize their
writes to the lock-protected error slot) is a list of runner indices, and
the interleaving the fan-out thread observes over its three input
channels is a list of events.  Channels are embedded as their eventually
delivered contents: a single-slot result channel is `Option (value)`
(`none` = the channel closed without a value having been sent), and a
bounded `chan::sync(cap)` Signal channel is a capacity plus the list of
buffered values.
-/

/-- `chan_signal::Signal`: the opaque, comparable external-event values
(OS signal identities).  The source uses `INT`, `HUP` and `ALRM`; the
remaining identities of the enum behave uniformly, so a representative
subset suffices for an equality-comparable value type. -/
inductive Signal where
  | HUP | INT | QUIT | ABRT | KILL | ALRM | TERM | USR1 | USR2 | WINCH
deriving DecidableEq, Repr

instance {E α : Type} [DecidableEq E] [DecidableEq α] : DecidableEq (Except E α) :=
  fun a b =>
    match a, b with
    | .ok x, .ok y =>
        if h : x = y then .isTrue (congrArg Except.ok h)
        else .isFalse (fun hc => h (Except.ok.inj hc))
    | .error e, .error f =>
        if h : e = f then .isTrue (congrArg Except.error h)
        else .isFalse (fun hc => h (Except.error.inj hc))
    | .ok _, .error _ => .isFalse Except.noConfusion
    | .error _, .ok _ => .isFalse Except.noConfusion

/-- The observable behaviour of one boxed `Runner` (trait in
src/traits.rs): the result its `setup` returns, and the result its `run`
returns once invoked.  The error type `E` embeds the opaque
`MaridError`. -/
structure RunnerModel (E : Type) where
  setupResult : Except E Unit
  runResult : Except E Unit
deriving DecidableEq, Repr

/-- `ProcessError` from src/process.rs. -/
inductive ProcessError (E : Type) where
  /-- The associated runner returned an error. -/
  | RunnerError : E → ProcessError E
  /-- The associated result has already been received by a caller. -/
  | ResultAlreadyGiven : ProcessError E
  /-- The process was not able to receive a result from the runner. -/
  | CouldNotRecvResult : ProcessError E
deriving DecidableEq, Repr

/-- `Result::map_err(ProcessError::RunnerError)` from src/process.rs. -/
def mapRunnerError {E : Type} : Except E Unit → Except (ProcessError E) Unit
  | .ok u => .ok u
  | .error e => .error (ProcessError.RunnerError e)

/-- A bounded `chan::sync(cap)` Signal channel: its capacity and the
values currently buffered (sent but not yet received). -/
structure Chan where
  cap : Nat
  buffer : List Signal
deriving DecidableEq, Repr

/-- `Sender::send` on a `chan::sync` channel: the value joins the buffer
(it is eventually delivered to the receiving side in FIFO order). -/
def Chan.send (c : Chan) (s : Signal) : Chan :=
  { c with buffer := c.buffer ++ [s] }

/-- Whether a `Sender::send` on a `chan::sync(cap)` channel must wait
before completing: it blocks while the buffer already holds `cap`
values (for `cap = 0`, a rendezvous channel, every send waits for a
receiver). -/
def Chan.sendWouldWait (c : Chan) : Bool :=
  c.cap ≤ c.buffer.length

/-- What the background thread spawned by `MaridProcess::spawn_run_thread`
(src/process.rs lines 96-111) leaves behind: the contents of the two
single-slot result channels (`none` = the channel closed with no value
ever sent) and whether `runner.run` was invoked. -/
structure ThreadOutput (E : Type) where
  setupSlot : Option (Except (ProcessError E) Unit)
  runSlot : Option (Except (ProcessError E) Unit)
  runInvoked : Bool
deriving DecidableEq, Repr

/-- `MaridProcess::spawn_run_thread`: the thread computes
`res = runner.setup().map_err(RunnerError)`, records `is_err`, sends
`res` on the setup channel, and only if `!is_err` invokes `runner.run`
and sends its mapped result on the run channel; after a setup failure
the run channel's sender is dropped unused, so that channel closes
without a value. -/
def spawn_run_thread {E : Type} (runner : RunnerModel E) : ThreadOutput E :=
  let res := mapRunnerError runner.setupResult
  let is_err := match res with | .error _ => true | .ok _ => false
  { setupSlot := some res
    runSlot := if is_err then none else some (mapRunnerError runner.runResult)
    runInvoked := !is_err }

/-- `ProcState` from src/process.rs lines 9-14. -/
inductive ProcState where
  | Init | SetupDone | Finished
deriving DecidableEq, Repr

/-- `MaridProcess` from src/process.rs: the two single-slot result
channels (receiver ends), the Signal-sending handle, and the one-shot
state cell.  A slot holds `some v` while the published value `v` is
still unreceived, `none` once consumed or if the channel closed without
a value. -/
structure MaridProcess (E : Type) where
  setup_chan : Option (Except (ProcessError E) Unit)
  run_chan : Option (Except (ProcessError E) Unit)
  signaler : Chan
  state : ProcState
deriving DecidableEq, Repr

/-- `MaridProcess::new`: spawns the background thread and starts in
state `Init` with both result channels as the thread leaves them. -/
def MaridProcess.new {E : Type} (runner : RunnerModel E) (signaler : Chan) :
    MaridProcess E :=
  let t := spawn_run_thread runner
  { setup_chan := t.setupSlot
    run_chan := t.runSlot
    signaler := signaler
    state := ProcState.Init }

/-- `recv().unwrap_or(Err(ProcessError::CouldNotRecvResult))`: a
blocking receive on a single-slot channel yields the published value,
or the `CouldNotRecvResult` error if the channel closed with no value. -/
def recvOr {E : Type} (slot : Option (Except (ProcessError E) Unit)) :
    Except (ProcessError E) Unit :=
  match slot with
  | some v => v
  | none => .error ProcessError.CouldNotRecvResult

/-- `MaridProcess::ready` (src/process.rs lines 118-128): in state
`Init`, advance to `SetupDone` and receive from the setup channel
(consuming its value); in any other state, return `ResultAlreadyGiven`
and touch nothing. -/
def MaridProcess.ready {E : Type} (p : MaridProcess E) :
    Except (ProcessError E) Unit × MaridProcess E :=
  match p.state with
  | ProcState.Init =>
      (recvOr p.setup_chan,
       { p with state := ProcState.SetupDone, setup_chan := none })
  | _ => (.error ProcessError.ResultAlreadyGiven, p)

/-- `MaridProcess::wait` (src/process.rs lines 130-140): in state `Init`
or `SetupDone`, advance to `Finished` and receive from the run channel
(consuming its value); in state `Finished`, return `ResultAlreadyGiven`
and touch nothing. -/
def MaridProcess.wait {E : Type} (p : MaridProcess E) :
    Except (ProcessError E) Unit × MaridProcess E :=
  match p.state with
  | ProcState.Init | ProcState.SetupDone =>
      (recvOr p.run_chan,
       { p with state := ProcState.Finished, run_chan := none })
  | ProcState.Finished => (.error ProcessError.ResultAlreadyGiven, p)

/-- `MaridProcess::signal` (src/process.rs lines 142-144): forward the
signal through the sending handle; nothing else of the process is
touched. -/
def MaridProcess.signal {E : Type} (p : MaridProcess E) (s : Signal) :
    MaridProcess E :=
  { p with signaler := p.signaler.send s }

/-- The Composer's `State` enum (src/composer.rs lines 19-22). -/
inductive CState where
  | Init | SetupDone
deriving DecidableEq, Repr

/-- `Composer` from src/composer.rs: an ordered collection of runners,
the lifecycle state, and the configured error signal. -/
structure Composer (E : Type) where
  runners : List (RunnerModel E)
  state : CState
  error_signal : Signal
deriving DecidableEq, Repr

/-- `Composer::new`: starts in state `Init`. -/
def Composer.new {E : Type} (runners : List (RunnerModel E))
    (error_signal : Signal) : Composer E :=
  { runners := runners, state := CState.Init, error_signal := error_signal }

/-- The `for r in self.runners.iter_mut() { try!(r.setup()); }` loop of
`Composer::setup`: returns the loop's result together with how many
`setup` calls were made (`try!` returns at the first failure, so the
runners after the failing one are never reached). -/
def setupLoop {E : Type} : List (RunnerModel E) → Except E Unit × Nat
  | [] => (.ok (), 0)
  | r :: rs =>
      match r.setupResult with
      | .error e => (.error e, 1)
      | .ok _ =>
          let p := setupLoop rs
          (p.1, p.2 + 1)

/-- `Composer::setup` (src/composer.rs lines 90-96): run the loop; on
its success set the state to `SetupDone` and return `Ok(())`; on a
failure `try!` propagates it before the state assignment, leaving the
state unchanged. -/
def Composer.setup {E : Type} (c : Composer E) : Except E Unit × Composer E :=
  match (setupLoop c.runners).1 with
  | .error e => (.error e, c)
  | .ok _ => (.ok (), { c with state := CState.SetupDone })

/-- A worker thread's `Err` branch (src/composer.rs lines 75-79): under
the lock it executes `*guard = Some(e)` — an unconditional overwrite of
the shared error slot; an `Ok` worker leaves the slot alone. -/
def writeSlot {E : Type} (slot : Option E) : Except E Unit → Option E
  | .ok _ => slot
  | .error e => some e

/-- The worker threads of `Composer::run`: one thread per runner, all
spawned; `order` lists the runner indices in the order in which the
workers complete and thus serialize their lock-protected slot writes. -/
def runWorkers {E : Type} (runners : List (RunnerModel E)) (order : List Nat)
    (slot : Option E) : Option E :=
  order.foldl
    (fun s i =>
      match runners[i]? with
      | some r => writeSlot s r.runResult
      | none => s)
    slot

/-- `take_error` (src/composer.rs lines 99-104): drain the slot;
`Some(e)` becomes `Err(e)`, `None` becomes `Ok(())`. -/
def take_error {E : Type} (slot : Option E) : Except E Unit :=
  match slot with
  | some e => .error e
  | none => .ok ()

/-- `Composer::run` (src/composer.rs lines 50-88): in state `Init`,
`try!(self.setup())` first — a setup failure returns before any worker
thread is spawned; then every runner's `run` is invoked on its own
worker thread, the workers' slot writes serialize in completion order
`order`, and after the structured join the slot is drained once.
Returns the result together with the indices of the runners whose `run`
was invoked. -/
def Composer.run {E : Type} (c : Composer E) (order : List Nat) :
    Except E Unit × List Nat :=
  match c.state with
  | CState.Init =>
      match (setupLoop c.runners).1 with
      | .error e => (.error e, [])
      | .ok _ => (take_error (runWorkers c.runners order none), order)
  | CState.SetupDone => (take_error (runWorkers c.runners order none), order)

/-- The failures among the workers' run results, in completion order:
the errors the serialized slot writes carry. -/
def runFailures {E : Type} (runners : List (RunnerModel E))
    (order : List Nat) : List E :=
  order.filterMap
    (fun i =>
      match runners[i]? with
      | some r => match r.runResult with | .error e => some e | .ok _ => none
      | none => none)

/-- One iteration's worth of input to the fan-out thread's
`chan_select!` (src/composer.rs lines 112-132): a value from the
external signal channel (`none` when that channel is closed), a
runner-failed notification, or the stop instruction. -/
inductive FanEvent where
  | sig : Option Signal → FanEvent
  | errNotify : FanEvent
  | stop : FanEvent
deriving DecidableEq, Repr

/-- The `for sn in senders.iter() { sn.send(sig) }` loop: append the
signal to every per-runner channel buffer. -/
def broadcast (bufs : List (List Signal)) (s : Signal) : List (List Signal) :=
  bufs.map (fun b => b ++ [s])

/-- `signaling_thread` (src/composer.rs lines 106-135), driven by the
serialized sequence of `chan_select!` outcomes: a received external
signal is forwarded to every per-runner channel (a `None` recv is
skipped by `continue`), an error notification broadcasts the configured
error signal the same way, and the stop instruction returns at once,
leaving any later events unprocessed. -/
def signaling_thread (error_signal : Signal) :
    List FanEvent → List (List Signal) → List (List Signal)
  | [], bufs => bufs
  | FanEvent.sig none :: es, bufs => signaling_thread error_signal es bufs
  | FanEvent.sig (some s) :: es, bufs =>
      signaling_thread error_signal es (broadcast bufs s)
  | FanEvent.errNotify :: es, bufs =>
      signaling_thread error_signal es (broadcast bufs error_signal)
  | FanEvent.stop :: _, bufs => bufs

/-- Modelled from the spec's ordering guarantee: the single sequence of
signals every per-runner channel is supposed to observe — each arriving
external Signal in arrival order, each runner-failed notification as
the configured error signal, nothing at or after the stop instruction. -/
def deliveredSpec (error_signal : Signal) : List FanEvent → List Signal
  | [] => []
  | FanEvent.sig none :: es => deliveredSpec error_signal es
  | FanEvent.sig (some s) :: es => s :: deliveredSpec error_signal es
  | FanEvent.errNotify :: es => error_signal :: deliveredSpec error_signal es
  | FanEvent.stop :: _ => []

/-! ## Sample objects used by the concrete witnesses -/

/-- A runner whose setup and run both succeed. -/
def sampleRunnerOk : RunnerModel Nat := ⟨.ok (), .ok ()⟩

/-- A runner whose setup fails with error `7`. -/
def sampleRunnerBadSetup : RunnerModel Nat := ⟨.error 7, .ok ()⟩

/-- An empty inbound channel of the reference capacity 1024. -/
def sampleChan : Chan := ⟨1024, []⟩

/-- A process that has already delivered both results. -/
def sampleProcFinished : MaridProcess Nat :=
  ⟨none, none, sampleChan, ProcState.Finished⟩

/-- A fresh process whose background thread died before publishing
either result: both channels closed without a value. -/
def sampleProcDeadThread : MaridProcess Nat :=
  ⟨none, none, sampleChan, ProcState.Init⟩

/-- A two-runner composer, already set up, whose first runner's run
fails with error `1` and whose second runner's run fails with `2`. -/
def sampleComposerTwoFailures : Composer Nat :=
  ⟨[⟨.ok (), .error 1⟩, ⟨.ok (), .error 2⟩], CState.SetupDone, Signal.INT⟩

/-- A composer whose second runner fails `setup` with error `5` (and the
third is never reached). -/
def sampleComposerBadSetup : Composer Nat :=
  ⟨[⟨.ok (), .ok ()⟩, ⟨.error 5, .ok ()⟩, ⟨.ok (), .ok ()⟩], CState.Init, Signal.INT⟩

/-- A fresh two-runner composer in state `Init`, everything succeeding. -/
def sampleComposerInit : Composer Nat :=
  Composer.new [sampleRunnerOk, ⟨.ok (), .ok ()⟩] Signal.INT

/-! ## Claims about the Process (src/process.rs) -/

/-- **C2.** For every Process, the first call to `ready()` in state
`Init` transitions the state to `SetupDone` and returns the setup
outcome published by the background thread (or `CouldNotRecvResult` if
the setup-result channel closed without a value); every subsequent call
to `ready()`, in any state other than `Init`, returns
`ResultAlreadyGiven` without blocking and without re-invoking setup (the
process, its channels included, is left untouched). -/
theorem ready_one_shot {E : Type} (r : RunnerModel E) (ch : Chan)
    (q qdead : MaridProcess E)
    (hq : q.state ≠ ProcState.Init)
    (hd : qdead.state = ProcState.Init)
    (hdc : qdead.setup_chan = none) :
    (MaridProcess.new r ch).ready.1 = mapRunnerError r.setupResult ∧
    (MaridProcess.new r ch).ready.2.state = ProcState.SetupDone ∧
    (MaridProcess.new r ch).ready.2.ready
      = (.error ProcessError.ResultAlreadyGiven, (MaridProcess.new r ch).ready.2) ∧
    qdead.ready.1 = .error ProcessError.CouldNotRecvResult ∧
    qdead.ready.2.state = ProcState.SetupDone ∧
    q.ready = (.error ProcessError.ResultAlreadyGiven, q) := by
  refine ⟨rfl, rfl, rfl, ?_, ?_, ?_⟩
  · simp [MaridProcess.ready, hd, hdc, recvOr]
  · simp [MaridProcess.ready, hd]
  · cases hs : q.state with
    | Init => exact absurd hs hq
    | SetupDone => simp [MaridProcess.ready, hs]
    | Finished => simp [MaridProcess.ready, hs]

/-- Concrete instantiation of `ready_one_shot`: a finished process
rejects `ready()` with `ResultAlreadyGiven`. -/
theorem ready_one_shot_witness :
    sampleProcFinished.state ≠ ProcState.Init ∧
    sampleProcFinished.ready
      = (.error ProcessError.ResultAlreadyGiven, sampleProcFinished) :=
  ⟨by decide,
   (ready_one_shot sampleRunnerOk sampleChan sampleProcFinished
      sampleProcDeadThread (by decide) rfl rfl).2.2.2.2.2⟩

/-- **C3.** For every Process, `wait()` called in state `Init` or
`SetupDone` transitions the state to `Finished` and returns the run
outcome (or `CouldNotRecvResult` if the run-result channel closed
without a value); a second call returns `ResultAlreadyGiven`; and
calling `wait()` without first calling `ready()` is legal and consumes
only the run-result, leaving the setup-result channel untouched.  For a
fresh process whose runner's setup succeeds, the value `wait()` returns
is the runner's run outcome. -/
theorem wait_one_shot {E : Type} (p : MaridProcess E) (r : RunnerModel E)
    (ch : Chan)
    (hp : p.state = ProcState.Init ∨ p.state = ProcState.SetupDone)
    (hr : r.setupResult = .ok ()) :
    p.wait.1 = recvOr p.run_chan ∧
    p.wait.2.state = ProcState.Finished ∧
    p.wait.2.wait = (.error ProcessError.ResultAlreadyGiven, p.wait.2) ∧
    p.wait.2.setup_chan = p.setup_chan ∧
    (MaridProcess.new r ch).state = ProcState.Init ∧
    (MaridProcess.new r ch).wait.1 = mapRunnerError r.runResult := by
  have hmain : p.wait = (recvOr p.run_chan,
      { p with state := ProcState.Finished, run_chan := none }) := by
    rcases hp with hs | hs <;> simp [MaridProcess.wait, hs]
  refine ⟨by rw [hmain], by rw [hmain], by rw [hmain]; rfl, by rw [hmain], rfl, ?_⟩
  simp [MaridProcess.new, MaridProcess.wait, spawn_run_thread, mapRunnerError, hr,
    recvOr]

/-- Concrete instantiation of `wait_one_shot`: waiting on a fresh
process without calling `ready()` first yields the run outcome and
leaves the setup-result channel untouched. -/
theorem wait_one_shot_witness :
    (MaridProcess.new sampleRunnerOk sampleChan).wait.1 = .ok () ∧
    (MaridProcess.new sampleRunnerOk sampleChan).wait.2.setup_chan
      = (MaridProcess.new sampleRunnerOk sampleChan).setup_chan :=
  ⟨(wait_one_shot (MaridProcess.new sampleRunnerOk sampleChan) sampleRunnerOk
      sampleChan (Or.inl rfl) rfl).2.2.2.2.2,
   (wait_one_shot (MaridProcess.new sampleRunnerOk sampleChan) sampleRunnerOk
      sampleChan (Or.inl rfl) rfl).2.2.2.1⟩

/-- **C10.** For every Process whose Runner's setup fails, the
background thread never publishes to the run-result channel (it closes
without a value), so any call to `wait()` — directly, or after
`ready()` — returns `CouldNotRecvResult` rather than the Runner's setup
error; the setup error is observable only through `ready()`, wrapped as
`RunnerError`. -/
theorem wait_after_setup_failure {E : Type} (r : RunnerModel E) (ch : Chan)
    (e : E) (h : r.setupResult = .error e) :
    (MaridProcess.new r ch).run_chan = none ∧
    (MaridProcess.new r ch).wait.1 = .error ProcessError.CouldNotRecvResult ∧
    (MaridProcess.new r ch).ready.2.wait.1
      = .error ProcessError.CouldNotRecvResult ∧
    (MaridProcess.new r ch).ready.1 = .error (ProcessError.RunnerError e) := by
  refine ⟨?_, ?_, ?_, ?_⟩ <;>
    simp [MaridProcess.new, MaridProcess.wait, MaridProcess.ready,
      spawn_run_thread, mapRunnerError, h, recvOr]

/-- Concrete instantiation of `wait_after_setup_failure` at a runner
whose setup fails with error `7`. -/
theorem wait_after_setup_failure_witness :
    (MaridProcess.new sampleRunnerBadSetup sampleChan).wait.1
      = .error ProcessError.CouldNotRecvResult ∧
    (MaridProcess.new sampleRunnerBadSetup sampleChan).ready.1
      = .error (ProcessError.RunnerError 7) :=
  ⟨(wait_after_setup_failure sampleRunnerBadSetup sampleChan 7 rfl).2.1,
   (wait_after_setup_failure sampleRunnerBadSetup sampleChan 7 rfl).2.2.2⟩

/-- **C4.** For every Runner whose setup returns an error, `run` is
never invoked: the Process's background thread publishes the setup
error (wrapped as `RunnerError`) and stops without calling `run`, and
the Composer's implicit setup in `run` short-circuits with the first
setup failure before any worker thread is spawned (the list of invoked
runs is empty), surfacing that error as-is. -/
theorem setup_failure_skips_run {E : Type} (r : RunnerModel E) (e : E)
    (c : Composer E) (e2 : E) (order : List Nat)
    (hr : r.setupResult = .error e)
    (hc : c.state = CState.Init)
    (hs : (setupLoop c.runners).1 = .error e2) :
    (spawn_run_thread r).runInvoked = false ∧
    (spawn_run_thread r).setupSlot = some (.error (ProcessError.RunnerError e)) ∧
    (spawn_run_thread r).runSlot = none ∧
    c.run order = (.error e2, []) := by
  refine ⟨?_, ?_, ?_, ?_⟩
  · simp [spawn_run_thread, mapRunnerError, hr]
  · simp [spawn_run_thread, mapRunnerError, hr]
  · simp [spawn_run_thread, mapRunnerError, hr]
  · simp [Composer.run, hc, hs]

/-- Concrete instantiation of `setup_failure_skips_run`: a runner whose
setup fails with `7` never has its run invoked, and a composer whose
second runner's setup fails with `5` spawns no worker. -/
theorem setup_failure_skips_run_witness :
    (spawn_run_thread sampleRunnerBadSetup).runInvoked = false ∧
    sampleComposerBadSetup.run [0, 1, 2] = (.error 5, []) :=
  ⟨(setup_failure_skips_run sampleRunnerBadSetup 7 sampleComposerBadSetup 5
      [0, 1, 2] rfl rfl rfl).1,
   (setup_failure_skips_run sampleRunnerBadSetup 7 sampleComposerBadSetup 5
      [0, 1, 2] rfl rfl rfl).2.2.2⟩

/-- **C9 (evidence).** `MaridProcess::signal` forwards the signal to the
runner's inbound stream and is callable any number of times, but it is
not unconditionally non-blocking: the sending handle is the sender of a
bounded `chan::sync(1024)` channel, and a send on such a channel must
wait while the buffer already holds 1024 undelivered signals, so
`signal` can block even though the trait documents it as non-blocking. -/
theorem signal_blocks_when_buffer_full :
    ((MaridProcess.mk none none (Chan.mk 1024 []) ProcState.Init
        : MaridProcess Nat).signal Signal.INT).signaler.buffer = [Signal.INT] ∧
    Chan.sendWouldWait (Chan.mk 1024 []) = false ∧
    Chan.sendWouldWait (Chan.mk 1024 (List.replicate 1024 Signal.INT)) = true := by
  refine ⟨rfl, rfl, ?_⟩
  simp only [Chan.sendWouldWait, List.length_replicate]
  decide

/-! ## Claims about the Composer (src/composer.rs) -/

lemma setupLoop_all_ok {E : Type} (rs : List (RunnerModel E))
    (h : ∀ r ∈ rs, r.setupResult = .ok ()) :
    setupLoop rs = (.ok (), rs.length) := by
  induction rs with
  | nil => rfl
  | cons a tl ih =>
      have ha : a.setupResult = .ok () := h a (List.mem_cons_self a tl)
      have htl : ∀ r ∈ tl, r.setupResult = .ok () :=
        fun r hm => h r (List.mem_cons_of_mem a hm)
      simp [setupLoop, ha, ih htl]

lemma setupLoop_first_fail {E : Type} (good rest : List (RunnerModel E))
    (r : RunnerModel E) (e : E)
    (hgood : ∀ rg ∈ good, rg.setupResult = .ok ())
    (hre : r.setupResult = .error e) :
    setupLoop (good ++ r :: rest) = (.error e, good.length + 1) := by
  induction good with
  | nil => simp [setupLoop, hre]
  | cons a tl ih =>
      have ha : a.setupResult = .ok () := hgood a (List.mem_cons_self a tl)
      have htl : ∀ rg ∈ tl, rg.setupResult = .ok () :=
        fun rg hm => hgood rg (List.mem_cons_of_mem a hm)
      simp [setupLoop, ha, ih htl]

/-- **C5.** For every Composer over a list of runners, `setup()` calls
each runner's setup in collection order and stops at the first failure:
when the runners split as `good ++ failing :: rest` with every runner in
`good` succeeding and `failing` failing with `e`, exactly
`good.length + 1` setups are invoked (the runners in `rest` are not set
up), the failure `e` is returned, and the state is left unchanged; when
every runner's setup succeeds, all of them are set up, the state
transitions to `SetupDone`, and `Ok(())` is returned.  `setup` is its
own operation, callable independently before `run`. -/
theorem composer_setup_in_order {E : Type} (c cg : Composer E)
    (good rest : List (RunnerModel E)) (r : RunnerModel E) (e : E)
    (hsplit : c.runners = good ++ r :: rest)
    (hgood : ∀ rg ∈ good, rg.setupResult = .ok ())
    (hre : r.setupResult = .error e)
    (hg : ∀ rg ∈ cg.runners, rg.setupResult = .ok ()) :
    setupLoop c.runners = (.error e, good.length + 1) ∧
    c.setup = (.error e, c) ∧
    setupLoop cg.runners = (.ok (), cg.runners.length) ∧
    cg.setup = (.ok (), { cg with state := CState.SetupDone }) := by
  have h1 : setupLoop c.runners = (.error e, good.length + 1) := by
    rw [hsplit]; exact setupLoop_first_fail good rest r e hgood hre
  have h2 := setupLoop_all_ok cg.runners hg
  refine ⟨h1, ?_, h2, ?_⟩
  · simp [Composer.setup, h1]
  · simp [Composer.setup, h2]

/-- Concrete instantiation of `composer_setup_in_order`: a composer
whose second runner's setup fails with `5` stops after two setup calls
with that failure, and an all-succeeding composer reaches `SetupDone`. -/
theorem composer_setup_in_order_witness :
    sampleComposerBadSetup.setup = (.error 5, sampleComposerBadSetup) ∧
    sampleComposerInit.setup
      = (.ok (), { sampleComposerInit with state := CState.SetupDone }) :=
  ⟨(composer_setup_in_order sampleComposerBadSetup sampleComposerInit
      [⟨.ok (), .ok ()⟩] [⟨.ok (), .ok ()⟩] ⟨.error 5, .ok ()⟩ 5
      rfl (by decide) rfl (by decide)).2.1,
   (composer_setup_in_order sampleComposerBadSetup sampleComposerInit
      [⟨.ok (), .ok ()⟩] [⟨.ok (), .ok ()⟩] ⟨.error 5, .ok ()⟩ 5
      rfl (by decide) rfl (by decide)).2.2.2⟩

lemma getLast?_cons_match {α : Type} (a : α) (l : List α) :
    (a :: l).getLast? =
      match l.getLast? with
      | some x => some x
      | none => some a := by
  rw [List.getLast?_cons]
  cases l.getLast? <;> rfl

lemma runWorkers_last {E : Type} (rs : List (RunnerModel E)) (order : List Nat)
    (slot : Option E) :
    runWorkers rs order slot =
      match (runFailures rs order).getLast? with
      | some x => some x
      | none => slot := by
  induction order generalizing slot with
  | nil => rfl
  | cons i tl ih =>
      cases hg : rs[i]? with
      | none =>
          have h1 : runWorkers rs (i :: tl) slot = runWorkers rs tl slot := by
            simp [runWorkers, hg]
          have h2 : runFailures rs (i :: tl) = runFailures rs tl := by
            simp [runFailures, List.filterMap_cons, hg]
          rw [h1, h2, ih]
      | some r =>
          cases hr : r.runResult with
          | ok u =>
              have h1 : runWorkers rs (i :: tl) slot = runWorkers rs tl slot := by
                simp [runWorkers, hg, hr, writeSlot]
              have h2 : runFailures rs (i :: tl) = runFailures rs tl := by
                simp [runFailures, List.filterMap_cons, hg, hr]
              rw [h1, h2, ih]
          | error e =>
              have h1 : runWorkers rs (i :: tl) slot
                  = runWorkers rs tl (some e) := by
                simp [runWorkers, hg, hr, writeSlot]
              have h2 : runFailures rs (i :: tl) = e :: runFailures rs tl := by
                simp [runFailures, List.filterMap_cons, hg, hr]
              rw [h1, h2, ih, getLast?_cons_match]
              cases (runFailures rs tl).getLast? <;> rfl

/-- **C1 (counterexample).** The shared error slot does *not* keep the
first failure: with two runners whose runs fail with `1` and `2` and
whose slot writes serialize in that order, the second write overwrites
the first (`*guard = Some(e)` is unconditional), so the failure drained
by `take_error` is `2`, the *last* one captured, not `1`. -/
theorem first_write_wins_refuted :
    writeSlot (some 1) (Except.error (2 : Nat)) = some 2 ∧
    (sampleComposerTwoFailures.run [0, 1]).1 = .error 2 ∧
    (sampleComposerTwoFailures.run [0, 1]).1 ≠ .error 1 := by
  decide

/-- **C1 (amended).** For every Composer run in which more than one
runner's run returns an error, the shared error slot retains the *last*
failure written: a failing runner's write unconditionally replaces the
stored value, so the failure finally drained is the last one captured
in slot-write serialization order. -/
theorem error_slot_last_write_wins {E : Type} (c : Composer E)
    (order : List Nat) (slot : Option E) (e : E)
    (hst : c.state = CState.SetupDone) :
    writeSlot slot (Except.error e) = some e ∧
    (c.run order).1 = take_error ((runFailures c.runners order).getLast?) := by
  refine ⟨rfl, ?_⟩
  have hrun : (c.run order).1 = take_error (runWorkers c.runners order none) := by
    simp [Composer.run, hst]
  rw [hrun, runWorkers_last]
  cases (runFailures c.runners order).getLast? <;> rfl

/-- Concrete instantiation of `error_slot_last_write_wins` at the
two-failure composer. -/
theorem error_slot_last_write_wins_witness :
    sampleComposerTwoFailures.state = CState.SetupDone ∧
    (sampleComposerTwoFailures.run [0, 1]).1
      = take_error ((runFailures sampleComposerTwoFailures.runners [0, 1]).getLast?) :=
  ⟨rfl,
   (error_slot_last_write_wins sampleComposerTwoFailures [0, 1] none 0 rfl).2⟩

lemma runFailures_eq_nil_iff {E : Type} (rs : List (RunnerModel E))
    (order : List Nat) (hperm : order.Perm (List.range rs.length)) :
    runFailures rs order = [] ↔ ∀ r ∈ rs, r.runResult = .ok () := by
  rw [runFailures, List.filterMap_eq_nil_iff]
  constructor
  · intro h r hr
    obtain ⟨n, hn⟩ := List.mem_iff_getElem?.mp hr
    have hlt : n < rs.length := (List.getElem?_eq_some_iff.mp hn).1
    have hmem : n ∈ order := hperm.mem_iff.mpr (List.mem_range.mpr hlt)
    have hfn := h n hmem
    rw [hn] at hfn
    cases hru : r.runResult with
    | ok u => cases u; rfl
    | error e => simp [hru] at hfn
  · intro h i _
    cases hg : rs[i]? with
    | none => rfl
    | some r =>
        have hr := h r (List.getElem?_mem hg)
        simp [hr]

lemma runFailures_mem {E : Type} (rs : List (RunnerModel E)) (order : List Nat)
    (e : E) (he : e ∈ runFailures rs order) :
    Except.error e ∈ rs.map RunnerModel.runResult := by
  obtain ⟨i, _, hfi⟩ := List.mem_filterMap.mp he
  cases hg : rs[i]? with
  | none => rw [hg] at hfi; exact absurd hfi (by simp)
  | some r =>
      rw [hg] at hfi
      cases hru : r.runResult with
      | ok u => simp [hru] at hfi
      | error e2 =>
          have he2 : e2 = e := by simpa [hru] using hfi
          exact List.mem_map.mpr ⟨r, List.getElem?_mem hg, by rw [hru, he2]⟩

/-- **C6.** For every Composer run (state `SetupDone`, one worker per
runner, the slot writes serializing in a completion order that covers
every runner exactly once), after all workers have completed the shared
error slot is drained and becomes the Composer's result: `Ok(())`
exactly when no runner's run failed, and `Err` carrying a failure
captured from one of the runners' runs when at least one failed. -/
theorem composer_run_aggregates {E : Type} (c : Composer E) (order : List Nat)
    (hst : c.state = CState.SetupDone)
    (hperm : order.Perm (List.range c.runners.length)) :
    (c.run order).2 = order ∧
    ((c.run order).1 = .ok () ↔ ∀ r ∈ c.runners, r.runResult = .ok ()) ∧
    (∀ e, (c.run order).1 = .error e →
      Except.error e ∈ c.runners.map RunnerModel.runResult) := by
  have hrun : c.run order
      = (take_error (runWorkers c.runners order none), order) := by
    simp [Composer.run, hst]
  have hfst : (c.run order).1 =
      take_error
        (match (runFailures c.runners order).getLast? with
         | some x => some x
         | none => none) := by
    rw [hrun, ← runWorkers_last]
  refine ⟨by rw [hrun], ?_, ?_⟩
  · rw [hfst]
    cases hgl : (runFailures c.runners order).getLast? with
    | some x =>
        constructor
        · intro h; exact absurd h (by simp [take_error])
        · intro h
          have hnil : runFailures c.runners order = [] :=
            (runFailures_eq_nil_iff c.runners order hperm).mpr h
          rw [hnil] at hgl
          exact absurd hgl (by simp)
    | none =>
        simp only [take_error]
        constructor
        · intro _
          exact (runFailures_eq_nil_iff c.runners order hperm).mp
            (List.getLast?_eq_none_iff.mp hgl)
        · intro _; trivial
  · intro e he
    rw [hfst] at he
    cases hgl : (runFailures c.runners order).getLast? with
    | none => rw [hgl] at he; exact absurd he (by simp [take_error])
    | some x =>
        rw [hgl] at he
        have hx : x = e := by simpa [take_error] using he
        exact runFailures_mem c.runners order e
          (hx ▸ List.mem_of_getLast?_eq_some hgl)

/-- Concrete instantiation of `composer_run_aggregates`: an
all-succeeding two-runner composer aggregates to `Ok(())`. -/
theorem composer_run_aggregates_witness :
    (Composer.mk [⟨.ok (), .ok ()⟩, ⟨.ok (), .ok ()⟩] CState.SetupDone
        Signal.INT : Composer Nat).run [1, 0] = (.ok (), [1, 0]) := by
  have h := composer_run_aggregates
    (Composer.mk [⟨.ok (), .ok ()⟩, ⟨.ok (), .ok ()⟩] CState.SetupDone
      Signal.INT : Composer Nat) [1, 0] rfl (by decide)
  have h1 := h.1
  have h2 := h.2.1.mpr (by decide)
  exact Prod.ext h2 h1

/-- **C7.** For every Composer in state `Init` and every completion
order, calling `setup()` explicitly and then `run()` (the caller stops
at a setup failure) produces the identical outcome as calling `run()`
alone, where `run` performs the setup implicitly before spawning any
worker. -/
theorem explicit_setup_eq_implicit {E : Type} (c : Composer E)
    (order : List Nat) (h : c.state = CState.Init) :
    (match c.setup with
     | (.error e, _) => ((.error e : Except E Unit), ([] : List Nat))
     | (.ok _, c2) => c2.run order) = c.run order := by
  cases hs : (setupLoop c.runners).1 with
  | error e => simp [Composer.setup, Composer.run, hs, h]
  | ok u => cases u; simp [Composer.setup, Composer.run, hs, h]

/-- Concrete instantiation of `explicit_setup_eq_implicit` at a fresh
two-runner composer. -/
theorem explicit_setup_eq_implicit_witness :
    (match sampleComposerInit.setup with
     | (.error e, _) => ((.error e : Except Nat Unit), ([] : List Nat))
     | (.ok _, c2) => c2.run [0, 1]) = sampleComposerInit.run [0, 1] :=
  explicit_setup_eq_implicit sampleComposerInit [0, 1] rfl

lemma signaling_thread_replicate (error_signal : Signal)
    (events : List FanEvent) (n : Nat) (b : List Signal) :
    signaling_thread error_signal events (List.replicate n b) =
      List.replicate n (b ++ deliveredSpec error_signal events) := by
  induction events generalizing b with
  | nil => simp [signaling_thread, deliveredSpec]
  | cons e es ih =>
      cases e with
      | sig o =>
          cases o with
          | none => simpa [signaling_thread, deliveredSpec] using ih b
          | some s =>
              have hb : broadcast (List.replicate n b) s
                  = List.replicate n (b ++ [s]) := by
                simp [broadcast, List.map_replicate]
              simp only [signaling_thread, deliveredSpec, hb, ih]
              simp
      | errNotify =>
          have hb : broadcast (List.replicate n b) error_signal
              = List.replicate n (b ++ [error_signal]) := by
            simp [broadcast, List.map_replicate]
          simp only [signaling_thread, deliveredSpec, hb, ih]
          simp
      | stop => simp [signaling_thread, deliveredSpec]

/-- **C8.** For every fan-out run over `n` per-runner channels, every
channel receives exactly the same sequence of signals, in the order the
fan-out thread observed its events: each arriving external Signal is
copied to every per-runner channel in arrival order (a closed-stream
recv is skipped), a runner-failed notification broadcasts the
configured error Signal to every channel the same way, and a stop
instruction terminates the fan-out thread immediately, regardless of
any pending backlog of later events. -/
theorem fanout_broadcast_order (error_signal : Signal)
    (events rest : List FanEvent) (n : Nat) (bufs : List (List Signal)) :
    signaling_thread error_signal events (List.replicate n []) =
      List.replicate n (deliveredSpec error_signal events) ∧
    signaling_thread error_signal (FanEvent.stop :: rest) bufs = bufs := by
  constructor
  · simpa using signaling_thread_replicate error_signal events n []
  · rfl
